import Mathlib

/-!
Shallow embedding of the erldash event loop and state controller
(src/ui.rs) and proofs about its sliding-window history, selection
clamping, pause/quit handling and channel error handling.

Modelling conventions:
- `Metrics.timestamp` is a capture instant in whole seconds (`Nat`).
  In the source, `(timestamp - item.timestamp).as_secs()` subtracts two
  instants and truncates to whole seconds; here it becomes truncated
  `Nat` subtraction.
- Terminal drawing is modelled by counting issued draws (the renderer
  itself only reads state); terminal I/O failures are outside the model.
- `history.back().expect("unreachable")` (a potential panic) is modelled
  by `Option`: `none` is the panic.
-/

/-- One timestamped metrics snapshot (the `Metrics` struct of
src/metrics.rs, which is not part of this snapshot). Modelled from the
spec: a Sample carries a capture `timestamp` and `root_count`, the count
of top-level metric entries (`root_metrics_count()` in the source);
further producer-defined fields are opaque to the controller and omitted. -/
structure Metrics where
  timestamp : Nat
  root_metrics_count : Nat
deriving DecidableEq

/-- `const ONE_MINUTE: u64 = 60;` -/
def ONE_MINUTE : Nat := 60

/-- `const CHART_DURATION: u64 = ONE_MINUTE;` -/
def CHART_DURATION : Nat := ONE_MINUTE

/-- The front-eviction loop of `App::handle_poll` (ui.rs:63-70):
pop items from the front while the just-inserted timestamp minus the
item's timestamp exceeds `CHART_DURATION`; the first item within the
bound is pushed back to the front and the loop stops. -/
def evict_old (timestamp : Nat) : List Metrics → List Metrics
  | [] => []
  | item :: rest =>
    if timestamp - item.timestamp ≤ CHART_DURATION then item :: rest
    else evict_old timestamp rest

/-- The history mutation of `App::handle_poll` on receipt of a sample
(ui.rs:61-70): `push_back` followed by the front-eviction loop, driven
by the just-inserted sample's timestamp. -/
def insert_sample (history : List Metrics) (metrics : Metrics) : List Metrics :=
  evict_old metrics.timestamp (history ++ [metrics])

/-- Inserting a sequence of samples one at a time into an initially
empty history, as successive `handle_poll` receipts do. -/
def run_history (samples : List Metrics) : List Metrics :=
  samples.foldl insert_sample []

/-- The `UiState` struct (ui.rs:152-159). `history` is the `VecDeque`
front-to-back; `metrics_table_state` is the `TableState` selection
cursor (`None` = no selection). -/
structure UiState where
  system_version : String
  pause : Bool
  history : List Metrics
  metrics_table_state : Option Nat
deriving DecidableEq

/-- `UiState::latest_metrics` (ui.rs:262-264): `history.back()`;
`none` models the `expect("unreachable")` panic on an empty history. -/
def UiState.latest_metrics (ui : UiState) : Option Metrics :=
  ui.history.getLast?

/-- `UiState::ensure_table_indices_are_in_ranges` (ui.rs:266-283):
`n.checked_sub(1)` selects `None` when the latest root count is 0, and
otherwise clamps `selected().unwrap_or(0)` to at most `n - 1`.
Wrapped in `Option` because it calls `latest_metrics`, which can panic. -/
def UiState.ensure_table_indices_are_in_ranges (ui : UiState) : Option UiState :=
  ui.latest_metrics.map fun lm =>
    match lm.root_metrics_count with
    | 0 => { ui with metrics_table_state := none }
    | Nat.succ m =>
        let i : Nat := min (ui.metrics_table_state.getD 0) m
        { ui with metrics_table_state := some i }

/-- Outcome of `rx.recv_timeout(..)` in `App::handle_poll` (ui.rs:54). -/
inductive PollResult where
  | disconnected
  | timeout
  | ok (metrics : Metrics)
deriving DecidableEq

/-- Result of one `handle_poll` call: either the `anyhow::bail!` fatal
error (carrying the controller state as it stands when bailing) or a
normal return together with whether a frame was drawn. -/
inductive PollStep where
  | fatal (msg : String) (ui : UiState)
  | ok (ui : UiState) (redrew : Bool)
deriving DecidableEq

/-- `App::render_ui` (ui.rs:115-120) issues a draw iff the history is
non-empty; this is the issued-draw flag. -/
def App.render_ui_draws (ui : UiState) : Bool :=
  !ui.history.isEmpty

/-- `App::handle_poll` (ui.rs:53-76): `Disconnected` bails with a fatal
error; `Timeout` is a no-op; a received sample is pushed, old samples
are evicted, the table indices are re-clamped and `render_ui` runs.
`none` models a panic inside `ensure_table_indices_are_in_ranges`. -/
def App.handle_poll (ui : UiState) (r : PollResult) : Option PollStep :=
  match r with
  | .disconnected =>
      some (.fatal "Erlang metrics polling thread terminated unexpectedly" ui)
  | .timeout => some (.ok ui false)
  | .ok metrics =>
      let ui1 : UiState := { ui with history := insert_sample ui.history metrics }
      ui1.ensure_table_indices_are_in_ranges.map fun ui2 =>
        PollStep.ok ui2 (App.render_ui_draws ui2)

/-- Key codes distinguished by `App::handle_key_event` (ui.rs:96-110). -/
inductive KeyCode where
  | char (c : Char)
  | left
  | right
  | up
  | down
  | other
deriving DecidableEq

/-- Events distinguished by `App::handle_event` (ui.rs:80-90). -/
inductive Event where
  | key (code : KeyCode)
  | resize (width height : Nat)
  | other
deriving DecidableEq

/-- Result of `App::handle_key_event`: the updated state, whether the
`Ok(true)` termination signal was returned, and whether `render_ui`
issued a draw. -/
structure KeyOutcome where
  ui : UiState
  terminate : Bool
  redrew : Bool
deriving DecidableEq

/-- `App::handle_key_event` (ui.rs:95-113): `'q'` returns the
termination signal immediately (no draw); `'p'` toggles the pause flag;
the arrow keys are no-ops; `'p'` and the arrows fall through to
`render_ui`; any other key returns early without drawing. -/
def App.handle_key_event (ui : UiState) (key : KeyCode) : KeyOutcome :=
  match key with
  | .char c =>
      if c = 'q' then ⟨ui, true, false⟩
      else if c = 'p' then
        let ui1 : UiState := { ui with pause := !ui.pause }
        ⟨ui1, false, App.render_ui_draws ui1⟩
      else ⟨ui, false, false⟩
  | .left => ⟨ui, false, App.render_ui_draws ui⟩
  | .right => ⟨ui, false, App.render_ui_draws ui⟩
  | .up => ⟨ui, false, App.render_ui_draws ui⟩
  | .down => ⟨ui, false, App.render_ui_draws ui⟩
  | .other => ⟨ui, false, false⟩

/-- Result of draining the pending event queue in `App::handle_event`:
the updated state, whether termination was requested, and how many
draws were issued while draining. -/
structure EventOutcome where
  ui : UiState
  terminate : Bool
  draws : Nat
deriving DecidableEq

/-- `App::handle_event` (ui.rs:78-93): drain the pending events in
order; a key event goes through `handle_key_event` and a termination
signal returns immediately; a resize draws directly on the terminal
(ui.rs:87, not through `render_ui`, so unconditionally); other events
are ignored. -/
def App.handle_event (ui : UiState) : List Event → EventOutcome
  | [] => ⟨ui, false, 0⟩
  | e :: rest =>
    match e with
    | .key code =>
        let ko := App.handle_key_event ui code
        let d : Nat := if ko.redrew then 1 else 0
        if ko.terminate then ⟨ko.ui, true, d⟩
        else
          let eo := App.handle_event ko.ui rest
          ⟨eo.ui, eo.terminate, d + eo.draws⟩
    | .resize _ _ =>
        let eo := App.handle_event ui rest
        ⟨eo.ui, eo.terminate, 1 + eo.draws⟩
    | .other => App.handle_event ui rest

/-- Outcome of one iteration of the `App::run` loop (ui.rs:35-47). -/
inductive IterResult where
  | terminated (ui : UiState) (draws : Nat)
  | continued (ui : UiState) (draws : Nat)
  | fatal (msg : String) (ui : UiState) (draws : Nat)
  | panicked
deriving DecidableEq

/-- One iteration of `App::run` (ui.rs:35-47): handle pending events
(breaking out of the loop on a termination signal); when paused, sleep
for the poll granularity instead of touching the metrics channel;
otherwise poll the channel with `handle_poll`. -/
def App.run_iteration (ui : UiState) (events : List Event) (r : PollResult) :
    IterResult :=
  let eo := App.handle_event ui events
  if eo.terminate then .terminated eo.ui eo.draws
  else if eo.ui.pause then .continued eo.ui eo.draws
  else
    match App.handle_poll eo.ui r with
    | none => .panicked
    | some (.fatal msg ui1) => .fatal msg ui1 eo.draws
    | some (.ok ui1 redrew) =>
        .continued ui1 (eo.draws + if redrew then 1 else 0)

/-- The eviction loop only removes a prefix: the retained history is a
suffix of the pre-eviction deque. -/
theorem evict_old_suffix (ts : Nat) (l : List Metrics) :
    (evict_old ts l).IsSuffix l := by
  induction l with
  | nil => exact List.suffix_rfl
  | cons x xs ih =>
    by_cases h : ts - x.timestamp ≤ CHART_DURATION
    · rw [evict_old, if_pos h]
    · rw [evict_old, if_neg h]
      exact ih.trans (List.suffix_cons x xs)

/-- Every retained sample was in the pre-eviction deque. -/
theorem evict_old_mem (ts : Nat) (l : List Metrics) :
    ∀ s ∈ evict_old ts l, s ∈ l :=
  fun _ hs => (evict_old_suffix ts l).sublist.mem hs

/-- If the last element of the deque is within the retention bound, the
eviction loop keeps it as last element (in particular the result is
non-empty). -/
theorem evict_old_getLast (ts : Nat) (l : List Metrics) (m : Metrics)
    (hl : l.getLast? = some m) (hm : ts - m.timestamp ≤ CHART_DURATION) :
    (evict_old ts l).getLast? = some m := by
  induction l with
  | nil => simp at hl
  | cons x xs ih =>
    cases xs with
    | nil =>
      simp at hl
      subst hl
      rw [evict_old, if_pos hm]
      simp
    | cons y ys =>
      rw [List.getLast?_cons_cons] at hl
      by_cases h : ts - x.timestamp ≤ CHART_DURATION
      · rw [evict_old, if_pos h, List.getLast?_cons_cons]
        exact hl
      · rw [evict_old, if_neg h]
        exact ih hl

/-- On a timestamp-sorted deque, every sample retained by the eviction
loop is within the retention bound of the insertion timestamp. -/
theorem evict_old_in_window (ts : Nat) (l : List Metrics)
    (hs : l.Pairwise (fun a b => a.timestamp ≤ b.timestamp)) :
    ∀ s ∈ evict_old ts l, ts - s.timestamp ≤ CHART_DURATION := by
  induction l with
  | nil => simp [evict_old]
  | cons x xs ih =>
    rw [List.pairwise_cons] at hs
    by_cases h : ts - x.timestamp ≤ CHART_DURATION
    · rw [evict_old, if_pos h]
      intro s hsmem
      rcases List.mem_cons.mp hsmem with rfl | hsmem
      · exact h
      · have hx : x.timestamp ≤ s.timestamp := hs.1 s hsmem
        omega
    · rw [evict_old, if_neg h]
      exact ih hs.2

/-- The just-inserted sample is always the last retained sample. -/
theorem insert_sample_getLast (h : List Metrics) (m : Metrics) :
    (insert_sample h m).getLast? = some m :=
  evict_old_getLast m.timestamp (h ++ [m]) m (List.getLast?_concat h) (by omega)

/-- Inserting always leaves a non-empty history. -/
theorem insert_sample_ne_nil (h : List Metrics) (m : Metrics) :
    insert_sample h m ≠ [] := by
  intro h0
  have hlast := insert_sample_getLast h m
  rw [h0] at hlast
  simp at hlast

/-- The history produced by a sequence of insertions is a sublist of the
inserted sequence. -/
theorem foldl_insert_sublist (samples : List Metrics) :
    ∀ h : List Metrics, (samples.foldl insert_sample h).Sublist (h ++ samples) := by
  induction samples with
  | nil => intro h; simp
  | cons m rest ih =>
    intro h
    have h1 : (rest.foldl insert_sample (insert_sample h m)).Sublist
        (insert_sample h m ++ rest) := ih (insert_sample h m)
    have h2 : (insert_sample h m).Sublist (h ++ [m]) :=
      (evict_old_suffix m.timestamp (h ++ [m])).sublist
    have h3 : (insert_sample h m ++ rest).Sublist ((h ++ [m]) ++ rest) :=
      h2.append (List.Sublist.refl rest)
    rw [List.foldl_cons]
    refine (h1.trans h3).trans ?_
    simp

/-- `run_history` retains a sublist of the inserted samples. -/
theorem run_history_sublist (samples : List Metrics) :
    (run_history samples).Sublist samples := by
  have h := foldl_insert_sublist samples []
  simpa [run_history] using h

/-- Explicit normal form of `handle_poll` on receipt of a sample: the
sample is appended, old samples are evicted, the cursor is re-clamped
against the just-inserted sample's root count (it is the latest), and a
frame is always drawn. -/
theorem handle_poll_recv_eq (ui : UiState) (m : Metrics) :
    App.handle_poll ui (.ok m) =
      some (.ok { ui with
          history := insert_sample ui.history m
          metrics_table_state :=
            match m.root_metrics_count with
            | 0 => none
            | Nat.succ k => some (min (ui.metrics_table_state.getD 0) k) } true) := by
  have hlast : (insert_sample ui.history m).getLast? = some m :=
    insert_sample_getLast ui.history m
  have hne : insert_sample ui.history m ≠ [] := insert_sample_ne_nil ui.history m
  simp only [App.handle_poll, UiState.ensure_table_indices_are_in_ranges,
    UiState.latest_metrics, hlast, Option.map_some']
  cases hrc : m.root_metrics_count with
  | zero =>
    simp [App.render_ui_draws, List.isEmpty_iff, hne]
  | succ k =>
    simp [App.render_ui_draws, List.isEmpty_iff, hne]

/-- `handle_key_event` never touches the history or the table cursor
(only the pause flag and the drawn frame). -/
theorem handle_key_event_preserves (ui : UiState) (key : KeyCode) :
    (App.handle_key_event ui key).ui.history = ui.history ∧
    (App.handle_key_event ui key).ui.metrics_table_state = ui.metrics_table_state := by
  cases key with
  | char c =>
    simp only [App.handle_key_event]
    split_ifs <;> simp
  | left => simp [App.handle_key_event]
  | right => simp [App.handle_key_event]
  | up => simp [App.handle_key_event]
  | down => simp [App.handle_key_event]
  | other => simp [App.handle_key_event]

/-- Draining the input queue never touches the history or the table
cursor. -/
theorem handle_event_preserves (events : List Event) : ∀ ui : UiState,
    (App.handle_event ui events).ui.history = ui.history ∧
    (App.handle_event ui events).ui.metrics_table_state = ui.metrics_table_state := by
  induction events with
  | nil => intro ui; simp [App.handle_event]
  | cons e rest ih =>
    intro ui
    cases e with
    | key code =>
      have hk := handle_key_event_preserves ui code
      cases hterm : (App.handle_key_event ui code).terminate with
      | true =>
        simp [App.handle_event, hterm]
        exact hk
      | false =>
        have he := ih (App.handle_key_event ui code).ui
        simp [App.handle_event, hterm]
        exact ⟨he.1.trans hk.1, he.2.trans hk.2⟩
    | resize w h =>
      have he := ih ui
      simp [App.handle_event]
      exact he
    | other =>
      have he := ih ui
      simp [App.handle_event]
      exact he

/-- `render_ui` only issues a draw when the history is non-empty. -/
theorem render_ui_draws_nonempty (ui : UiState)
    (h : App.render_ui_draws ui = true) : ui.history ≠ [] := by
  simpa [App.render_ui_draws, List.isEmpty_iff] using h

/-- Claim C1: for every sequence of samples inserted in non-decreasing
timestamp order, after each insertion (`push_back` followed by the
front-eviction loop of `handle_poll`) the history is non-empty with the
just-inserted sample last, no retained sample is more than 60 seconds
older than the just-inserted sample's timestamp, and the timestamp gap
between any two retained samples (in particular between the newest and
the oldest) is at most 60 seconds. -/
theorem window_bound_after_each_insertion (pre : List Metrics) (m : Metrics)
    (hsorted : (pre ++ [m]).Pairwise (fun a b => a.timestamp ≤ b.timestamp)) :
    run_history (pre ++ [m]) ≠ [] ∧
    (run_history (pre ++ [m])).getLast? = some m ∧
    (∀ s ∈ run_history (pre ++ [m]),
      s.timestamp ≤ m.timestamp ∧ m.timestamp - s.timestamp ≤ CHART_DURATION) ∧
    (∀ a ∈ run_history (pre ++ [m]), ∀ b ∈ run_history (pre ++ [m]),
      a.timestamp - b.timestamp ≤ CHART_DURATION) := by
  have hrun : run_history (pre ++ [m]) = insert_sample (run_history pre) m := by
    simp [run_history, List.foldl_append]
  have hsub : (run_history pre).Sublist pre := run_history_sublist pre
  have hsub2 : (run_history pre ++ [m]).Sublist (pre ++ [m]) :=
    hsub.append (List.Sublist.refl [m])
  have hsorted2 : (run_history pre ++ [m]).Pairwise
      (fun a b => a.timestamp ≤ b.timestamp) := hsorted.sublist hsub2
  have hlast := insert_sample_getLast (run_history pre) m
  have hne := insert_sample_ne_nil (run_history pre) m
  have hwin : ∀ s ∈ insert_sample (run_history pre) m,
      m.timestamp - s.timestamp ≤ CHART_DURATION :=
    evict_old_in_window m.timestamp (run_history pre ++ [m]) hsorted2
  have hle : ∀ s ∈ insert_sample (run_history pre) m,
      s.timestamp ≤ m.timestamp := by
    intro s hs
    have hs2 : s ∈ run_history pre ++ [m] :=
      evict_old_mem m.timestamp (run_history pre ++ [m]) s hs
    have hs3 : s ∈ pre ++ [m] := hsub2.mem hs2
    rcases List.mem_append.mp hs3 with hpre | hm
    · exact (List.pairwise_append.mp hsorted).2.2 s hpre m (by simp)
    · simp at hm
      subst hm
      exact le_refl _
  rw [hrun]
  refine ⟨hne, hlast, fun s hs => ⟨hle s hs, hwin s hs⟩, ?_⟩
  intro a ha b hb
  have h1 := hle a ha
  have h2 := hwin b hb
  omega

/-- Witness for C1 at the concrete sorted input t = 0, 10, 20. -/
theorem window_bound_after_each_insertion_witness :
    (([⟨0, 1⟩, ⟨10, 2⟩] ++ [⟨20, 3⟩] : List Metrics)).Pairwise
      (fun a b => a.timestamp ≤ b.timestamp) ∧
    run_history ([⟨0, 1⟩, ⟨10, 2⟩] ++ [⟨20, 3⟩]) ≠ [] ∧
    (run_history ([⟨0, 1⟩, ⟨10, 2⟩] ++ [⟨20, 3⟩])).getLast? = some ⟨20, 3⟩ :=
  ⟨by decide,
   (window_bound_after_each_insertion [⟨0, 1⟩, ⟨10, 2⟩] ⟨20, 3⟩ (by decide)).1,
   (window_bound_after_each_insertion [⟨0, 1⟩, ⟨10, 2⟩] ⟨20, 3⟩ (by decide)).2.1⟩

/-- Claim C8: inserting samples at t = 0, 10, 20, 70 seconds one at a
time into an initially empty history with the 60-second retention bound
leaves exactly the samples with timestamps 10, 20, 70 in that order
(70 - 0 = 70 > 60 evicts t = 0; 70 - 10 = 60 ≤ 60 retains t = 10). -/
theorem retention_scenario_window :
    run_history [⟨0, 0⟩, ⟨10, 0⟩, ⟨20, 0⟩, ⟨70, 0⟩] =
      [⟨10, 0⟩, ⟨20, 0⟩, ⟨70, 0⟩] ∧
    (run_history [⟨0, 0⟩, ⟨10, 0⟩, ⟨20, 0⟩, ⟨70, 0⟩]).map Metrics.timestamp =
      [10, 20, 70] := by
  decide

/-- Claim C2: after every receipt of a new sample the cursor is
"no selection" iff the latest sample's root count is 0; otherwise it is
a valid 0-based index strictly below that count, and a previous value v
is clamped to min(v, count - 1). -/
theorem selection_clamp_after_receipt (ui : UiState) (m : Metrics) :
    ∃ ui2 : UiState,
      App.handle_poll ui (.ok m) = some (.ok ui2 true) ∧
      (ui2.metrics_table_state = none ↔ m.root_metrics_count = 0) ∧
      (∀ i, ui2.metrics_table_state = some i → i < m.root_metrics_count) ∧
      (∀ v, ui.metrics_table_state = some v → m.root_metrics_count ≠ 0 →
        ui2.metrics_table_state = some (min v (m.root_metrics_count - 1))) := by
  refine ⟨_, handle_poll_recv_eq ui m, ?_, ?_, ?_⟩
  · cases hrc : m.root_metrics_count <;> simp [hrc]
  · intro i hi
    cases hrc : m.root_metrics_count with
    | zero => simp [hrc] at hi
    | succ k =>
      simp only [hrc] at hi ⊢
      simp at hi
      have hk := Nat.min_le_right (ui.metrics_table_state.getD 0) k
      omega
  · intro v hv hn
    cases hrc : m.root_metrics_count with
    | zero => exact absurd hrc hn
    | succ k =>
      simp only [hrc]
      simp [hv]

/-- Witness for C2: previous selection 4 and a new sample with root
count 2 yield selection 1, the claim's concrete scenario. -/
theorem selection_clamp_after_receipt_witness :
    ∃ ui2 : UiState,
      App.handle_poll ⟨"", false, [], some 4⟩ (.ok ⟨0, 2⟩) = some (.ok ui2 true) ∧
      ui2.metrics_table_state = some 1 := by
  obtain ⟨ui2, h1, h2, h3, h4⟩ :=
    selection_clamp_after_receipt ⟨"", false, [], some 4⟩ ⟨0, 2⟩
  refine ⟨ui2, h1, ?_⟩
  have h5 := h4 4 rfl (by decide)
  exact h5.trans (by decide)

/-- Claim C9: `latest_metrics` never hits its `expect("unreachable")`:
after the insertion in `handle_poll` the history always ends with the
just-inserted sample (the eviction loop re-inserts the last popped
item), so it is non-empty at the only call site, and `handle_poll`
never panics on any poll outcome. -/
theorem latest_metrics_never_panics (ui : UiState) (m : Metrics) (r : PollResult) :
    UiState.latest_metrics { ui with history := insert_sample ui.history m } =
      some m ∧
    App.handle_poll ui r ≠ none := by
  constructor
  · simpa [UiState.latest_metrics] using insert_sample_getLast ui.history m
  · cases r with
    | disconnected => simp [App.handle_poll]
    | timeout => simp [App.handle_poll]
    | ok metrics =>
      rw [handle_poll_recv_eq]
      simp

/-- Claim C10: a sample with positive root count arriving while the
cursor holds "no selection" sets the cursor to index 0 (the clamp
treats an unset cursor as 0 via `unwrap_or(0)`). -/
theorem unset_cursor_selects_zero (ui : UiState) (m : Metrics)
    (hsel : ui.metrics_table_state = none) (hn : m.root_metrics_count ≠ 0) :
    ∃ ui2 : UiState, App.handle_poll ui (.ok m) = some (.ok ui2 true) ∧
      ui2.metrics_table_state = some 0 := by
  refine ⟨_, handle_poll_recv_eq ui m, ?_⟩
  cases hrc : m.root_metrics_count with
  | zero => exact absurd hrc hn
  | succ k => simp [hrc, hsel]

/-- Witness for C10 at a concrete unset cursor and root count 3. -/
theorem unset_cursor_selects_zero_witness :
    ∃ ui2 : UiState,
      App.handle_poll ⟨"", false, [], none⟩ (.ok ⟨0, 3⟩) = some (.ok ui2 true) ∧
      ui2.metrics_table_state = some 0 :=
  unset_cursor_selects_zero ⟨"", false, [], none⟩ ⟨0, 3⟩ rfl (by decide)

/-- Claim C6: for every controller state (running or paused — `ui` is
arbitrary, so in particular `ui.pause` may be true), a `'q'` key event
makes `handle_key_event` return the termination signal without touching
the state or drawing, and the run-loop iteration terminates immediately
without consulting the metrics channel (the outcome is the same for
every pending poll result `r`) and without processing further events. -/
theorem quit_key_terminates (ui : UiState) (rest : List Event) (r : PollResult) :
    App.handle_key_event ui (.char 'q') = ⟨ui, true, false⟩ ∧
    App.run_iteration ui (Event.key (.char 'q') :: rest) r =
      .terminated ui 0 := by
  have hq : App.handle_key_event ui (.char 'q') = ⟨ui, true, false⟩ := by
    simp [App.handle_key_event]
  refine ⟨hq, ?_⟩
  simp [App.run_iteration, App.handle_event, hq]

/-- Claim C7: observing `Disconnected` on the metrics channel produces
the fatal error (terminating the loop with an error result) rather than
a retry or a timeout continuation, and the history and selection state
are unchanged on this path. -/
theorem disconnect_is_fatal (ui : UiState) (events : List Event)
    (hterm : (App.handle_event ui events).terminate = false)
    (hpause : (App.handle_event ui events).ui.pause = false) :
    App.handle_poll ui .disconnected =
      some (.fatal "Erlang metrics polling thread terminated unexpectedly" ui) ∧
    App.run_iteration ui events .disconnected =
      .fatal "Erlang metrics polling thread terminated unexpectedly"
        (App.handle_event ui events).ui (App.handle_event ui events).draws ∧
    (App.handle_event ui events).ui.history = ui.history ∧
    (App.handle_event ui events).ui.metrics_table_state =
      ui.metrics_table_state := by
  refine ⟨rfl, ?_, (handle_event_preserves events ui).1,
    (handle_event_preserves events ui).2⟩
  simp [App.run_iteration, hterm, hpause, App.handle_poll]

/-- Witness for C7 with no pending events and a running controller. -/
theorem disconnect_is_fatal_witness :
    App.run_iteration ⟨"", false, [], none⟩ [] .disconnected =
      .fatal "Erlang metrics polling thread terminated unexpectedly"
        ⟨"", false, [], none⟩ 0 := by
  have h := disconnect_is_fatal ⟨"", false, [], none⟩ [] rfl rfl
  simpa [App.handle_event] using h.2.1

/-- Claim C3: in a loop iteration in which no sample is received —
either the pause flag is true after event handling (the controller
sleeps instead of polling) or the bounded channel wait timed out — the
iteration just continues: the history and the selection cursor are left
exactly as they were before the iteration, the only draws are the
input-driven ones, and in the paused case the outcome is independent of
whatever is pending on the metrics channel. -/
theorem no_sample_leaves_state_unchanged (ui : UiState) (events : List Event)
    (r : PollResult)
    (hterm : (App.handle_event ui events).terminate = false)
    (hns : (App.handle_event ui events).ui.pause = true ∨ r = .timeout) :
    App.run_iteration ui events r =
      .continued (App.handle_event ui events).ui
        (App.handle_event ui events).draws ∧
    ((App.handle_event ui events).ui.pause = true →
      ∀ r' : PollResult,
        App.run_iteration ui events r = App.run_iteration ui events r') ∧
    (App.handle_event ui events).ui.history = ui.history ∧
    (App.handle_event ui events).ui.metrics_table_state =
      ui.metrics_table_state := by
  have hpres := handle_event_preserves events ui
  have hmain : ∀ r0 : PollResult,
      ((App.handle_event ui events).ui.pause = true ∨ r0 = .timeout) →
      App.run_iteration ui events r0 =
        .continued (App.handle_event ui events).ui
          (App.handle_event ui events).draws := by
    intro r0 h0
    rcases h0 with hp | ht
    · simp [App.run_iteration, hterm, hp]
    · subst ht
      by_cases hp : (App.handle_event ui events).ui.pause = true
      · simp [App.run_iteration, hterm, hp]
      · simp only [Bool.not_eq_true] at hp
        simp [App.run_iteration, hterm, hp, App.handle_poll]
  refine ⟨hmain r hns, ?_, hpres.1, hpres.2⟩
  intro hp r'
  rw [hmain r (Or.inl hp), hmain r' (Or.inl hp)]

/-- Witness for C3: paused controller, empty event queue, and a sample
pending on the channel — the iteration continues with nothing changed
and no draw. -/
theorem no_sample_leaves_state_unchanged_witness :
    (App.handle_event ⟨"", true, [⟨1, 1⟩], some 0⟩ []).terminate = false ∧
    App.run_iteration ⟨"", true, [⟨1, 1⟩], some 0⟩ [] (.ok ⟨99, 5⟩) =
      .continued ⟨"", true, [⟨1, 1⟩], some 0⟩ 0 := by
  refine ⟨rfl, ?_⟩
  have h := no_sample_leaves_state_unchanged ⟨"", true, [⟨1, 1⟩], some 0⟩ []
    (.ok ⟨99, 5⟩) rfl (Or.inl rfl)
  simpa [App.handle_event] using h.1

/-- Claim C5 (counterexample): with an empty history, a terminal resize
event — an input, not a sample arrival — still issues a draw
(ui.rs:87 calls `terminal.draw` directly, bypassing the `render_ui`
guard), so an input-triggered redraw is not issued only when the
history is non-empty. -/
theorem input_redraw_guard_counterexample :
    (UiState.history ⟨"", false, [], none⟩ = ([] : List Metrics)) ∧
    (App.handle_event ⟨"", false, [], none⟩ [Event.resize 80 24]).draws = 1 := by
  exact ⟨rfl, rfl⟩

/-- Claim C5 (amended): a redraw triggered by a keyboard key is issued
only when the history is non-empty; a redraw triggered by a terminal
resize is always issued (one draw per resize event, even with an empty
history); a redraw triggered by sample arrival is always issued. -/
theorem input_redraw_guard_amended (ui : UiState) (key : KeyCode) (m : Metrics)
    (w h : Nat) :
    ((App.handle_key_event ui key).redrew = true → ui.history ≠ []) ∧
    (App.handle_event ui [Event.resize w h]).draws = 1 ∧
    (∃ ui2 : UiState, App.handle_poll ui (.ok m) = some (.ok ui2 true)) := by
  refine ⟨?_, ?_, ⟨_, handle_poll_recv_eq ui m⟩⟩
  · intro hr
    cases key with
    | char c =>
      simp only [App.handle_key_event] at hr
      split_ifs at hr with h1 h2
      exact render_ui_draws_nonempty _ hr
    | left => exact render_ui_draws_nonempty _ hr
    | right => exact render_ui_draws_nonempty _ hr
    | up => exact render_ui_draws_nonempty _ hr
    | down => exact render_ui_draws_nonempty _ hr
    | other => simp [App.handle_key_event] at hr
  · simp [App.handle_event]

/-- Witness for C5 (amended): an arrow key on a non-empty history drew,
so the history is indeed non-empty; one resize issues one draw; a
sample arrival draws. -/
theorem input_redraw_guard_amended_witness :
    (UiState.history ⟨"", false, [⟨1, 1⟩], some 0⟩ ≠ []) ∧
    (App.handle_event ⟨"", false, [⟨1, 1⟩], some 0⟩ [Event.resize 80 24]).draws = 1 ∧
    (∃ ui2 : UiState,
      App.handle_poll ⟨"", false, [⟨1, 1⟩], some 0⟩ (.ok ⟨2, 1⟩) =
        some (.ok ui2 true)) := by
  have h := input_redraw_guard_amended ⟨"", false, [⟨1, 1⟩], some 0⟩
    KeyCode.left ⟨2, 1⟩ 80 24
  exact ⟨h.1 (by decide), h.2.1, h.2.2⟩
